import Mathlib

/-!
Verification of the authentication and session-continuity subsystem of
`custom_components/audiconnect/audi_services.py` (class `AudiService`).

The Python code is shallowly embedded: Python dicts become association
lists over `String` keys, JSON scalar values become `JVal`, exceptions
become `Except Unit`, and the network transport (`self._api`) becomes an
explicit environment of response outcomes.  External library calls whose
behaviour the code relies on (hashlib digests, the byte-array decoding
helper `util.to_byte_array`, BeautifulSoup HTML extraction) are passed in
as function parameters, exactly as the spec treats them (external
collaborators).  Network requests attempted by a function are collected
in an explicit log so that "issues no network request" is statable.
-/

/-- A JSON scalar value as stored in the parsed token dictionaries:
either a string or an integer. -/
inductive JVal where
  | s (v : String)
  | n (v : Int)
  deriving DecidableEq, Repr

/-- Python dict over string keys (keys unique by construction of
`pySet`; lookup takes the first binding). -/
abbrev PyDict (α : Type) := List (String × α)

/-- `d.get(k)` / `k in d` support: first binding for `k`. -/
def pyLookup {α : Type} : PyDict α → String → Option α
  | [], _ => none
  | (k', v) :: rest, k => if k' = k then some v else pyLookup rest k

/-- `d[k] = v`: replace the value at the first binding for `k`,
or append a new binding when `k` is absent (Python dict assignment
preserves insertion order). -/
def pySet {α : Type} : PyDict α → String → α → PyDict α
  | [], k, v => [(k, v)]
  | (k', v') :: rest, k, v =>
      if k' = k then (k', v) :: rest else (k', v') :: pySet rest k v

theorem pyLookup_pySet_self {α : Type} (d : PyDict α) (k : String) (v : α) :
    pyLookup (pySet d k v) k = some v := by
  induction d with
  | nil => simp [pySet, pyLookup]
  | cons hd tl ih =>
      obtain ⟨k', v'⟩ := hd
      by_cases h : k' = k <;> simp [pySet, pyLookup, h, ih]

theorem pyLookup_pySet_ne {α : Type} (d : PyDict α) (k k' : String) (v : α)
    (h : k' ≠ k) : pyLookup (pySet d k v) k' = pyLookup d k' := by
  have h' : k ≠ k' := fun hh => h hh.symm
  induction d with
  | nil => simp [pySet, pyLookup, h']
  | cons hd tl ih =>
      obtain ⟨k₀, v₀⟩ := hd
      by_cases h0 : k₀ = k
      · subst h0
        simp [pySet, pyLookup, h']
      · by_cases h1 : k₀ = k'
        · subst h1
          simp [pySet, pyLookup, h0, h]
        · simp [pySet, pyLookup, h0, h1, ih]

/-- A parsed JSON token record (`json.loads` of a response body that is
a JSON object). -/
abbrev Tok := PyDict JVal

/-- The token-holding fields of an `AudiService` instance that
`refresh_token_if_necessary` reads or writes.  `vwToken` and `audiToken`
are not initialised in `__init__`, so `none` models the attribute being
unset (or set to Python `None` for `mbboauthToken` / `_bearer_token_json`). -/
structure AudiState where
  mbboauthToken : Option Tok
  vwToken : Option Tok
  bearer_token_json : Option Tok
  audiToken : Option Tok
  deriving DecidableEq, Repr

/-- Outcomes of the three network exchanges attempted by
`refresh_token_if_necessary`, in chain order: the MBB-OAuth refresh, the
IDK (identity bearer) token request, and the AZS (authorization server)
token request.  `.error ()` covers the request raising or its body
failing to parse as a JSON object — in both cases the Python code
performs no assignment for that step. -/
structure RefreshEnv where
  mbb : Except Unit Tok
  idk : Except Unit Tok
  azs : Except Unit Tok

/-- Result of `refresh_token_if_necessary`: `.ok (b, st)` is a normal
return of `b` with post-state `st`; `.error ()` is an uncaught exception
(only possible from the `expires_in` comparison, which sits before the
`try` block and raises `TypeError` on a non-integer value). -/
abbrev RefreshResult := Except Unit (Bool × AudiState) × List String

/-- Embedding of `AudiService.refresh_token_if_necessary(elapsed_sec)`
(audi_services.py lines 946–1050).  The second component logs each
network request attempted, in order. -/
def refresh_token_if_necessary (env : RefreshEnv) (st : AudiState)
    (elapsed_sec : Int) : RefreshResult :=
  match st.mbboauthToken with
  | none => (.ok (false, st), [])
  | some tok =>
    if (pyLookup tok "refresh_token").isNone then (.ok (false, st), [])
    else match pyLookup tok "expires_in" with
      | none => (.ok (false, st), [])
      | some (JVal.s _) => (.error (), [])
      | some (JVal.n expires_in) =>
        if elapsed_sec + 5 * 60 < expires_in then (.ok (false, st), [])
        else
          match env.mbb with
          | .error _ => (.ok (false, st), ["mbboauth_refresh"])
          | .ok vw =>
            let st1 : AudiState := { st with vwToken := some vw }
            let st2 : AudiState :=
              match pyLookup vw "refresh_token" with
              | some v =>
                  { st1 with mbboauthToken := some (pySet tok "refresh_token" v) }
              | none => st1
            match st2.bearer_token_json with
            | none => (.ok (false, st2), ["mbboauth_refresh"])
            | some _ =>
              match env.idk with
              | .error _ => (.ok (false, st2), ["mbboauth_refresh", "idk_token"])
              | .ok bearer =>
                let st3 : AudiState := { st2 with bearer_token_json := some bearer }
                match pyLookup bearer "access_token" with
                | none => (.ok (false, st3), ["mbboauth_refresh", "idk_token"])
                | some _ =>
                  match env.azs with
                  | .error _ =>
                      (.ok (false, st3), ["mbboauth_refresh", "idk_token", "azs_token"])
                  | .ok azs =>
                      (.ok (true, { st3 with audiToken := some azs }),
                       ["mbboauth_refresh", "idk_token", "azs_token"])

/-- The stored `mbboauthToken` after a successful legacy-token refresh
whose parsed response is `vw`: `refresh_token` is overwritten when the
response carries one, otherwise the record is untouched
(audi_services.py lines 984–989). -/
def mbbAfterRefresh (tok vw : Tok) : Tok :=
  match pyLookup vw "refresh_token" with
  | some v => pySet tok "refresh_token" v
  | none => tok

/-- C4: when the legacy OAuth token is absent, lacks a refresh token, or
satisfies `elapsed_sec + 300 < expires_in`, `refresh_token_if_necessary`
returns `false`, leaves the state unchanged, and attempts no network
request. -/
theorem refresh_guard_noop (env : RefreshEnv) (st : AudiState) (elapsed_sec : Int)
    (h : st.mbboauthToken = none
       ∨ (∃ tok, st.mbboauthToken = some tok ∧ pyLookup tok "refresh_token" = none)
       ∨ (∃ tok e, st.mbboauthToken = some tok
            ∧ pyLookup tok "expires_in" = some (JVal.n e)
            ∧ elapsed_sec + 300 < e)) :
    refresh_token_if_necessary env st elapsed_sec = (.ok (false, st), []) := by
  unfold refresh_token_if_necessary
  rcases h with h | ⟨tok, htok, hrt⟩ | ⟨tok, e, htok, hexp, hlt⟩
  · rw [h]
  · rw [htok]
    simp [hrt]
  · rw [htok]
    cases hrt : pyLookup tok "refresh_token" with
    | none => simp [hrt]
    | some v =>
        have hlt' : elapsed_sec + 5 * 60 < e := by omega
        simp only [hrt, Option.isNone_some, Bool.false_eq_true, if_false, hexp]
        rw [if_pos hlt']

/-- Witness for `refresh_guard_noop` at a concrete state whose token
lacks a refresh token. -/
theorem refresh_guard_noop_witness :
    refresh_token_if_necessary ⟨.error (), .error (), .error ()⟩
      ⟨some [("expires_in", JVal.n 3600)], none, none, none⟩ 0
      = (.ok (false, ⟨some [("expires_in", JVal.n 3600)], none, none, none⟩), []) :=
  refresh_guard_noop _ _ _ (Or.inr (Or.inl ⟨_, rfl, by decide⟩))

/-- C5: whenever the legacy-token refresh step succeeds (the guards
passed and the MBB refresh exchange yields a parsed response `vw`), the
stored `mbboauthToken` in the final state is `mbbAfterRefresh tok vw`:
every field other than `refresh_token` (in particular `expires_in`) is
unchanged, and `refresh_token` is overwritten exactly when the response
carries one. -/
theorem legacy_refresh_frame (env : RefreshEnv) (st : AudiState) (elapsed_sec : Int)
    (tok : Tok) (rt : JVal) (e : Int) (vw : Tok)
    (htok : st.mbboauthToken = some tok)
    (hrt : pyLookup tok "refresh_token" = some rt)
    (hexp : pyLookup tok "expires_in" = some (JVal.n e))
    (hdue : ¬ elapsed_sec + 300 < e)
    (hmbb : env.mbb = .ok vw) :
    (∃ b st' log, refresh_token_if_necessary env st elapsed_sec = (.ok (b, st'), log)
        ∧ st'.mbboauthToken = some (mbbAfterRefresh tok vw))
      ∧ (∀ k, k ≠ "refresh_token" → pyLookup (mbbAfterRefresh tok vw) k = pyLookup tok k)
      ∧ pyLookup (mbbAfterRefresh tok vw) "expires_in" = pyLookup tok "expires_in"
      ∧ (∀ v, pyLookup vw "refresh_token" = some v →
            pyLookup (mbbAfterRefresh tok vw) "refresh_token" = some v)
      ∧ (pyLookup vw "refresh_token" = none → mbbAfterRefresh tok vw = tok) := by
  have hdue' : ¬ elapsed_sec + 5 * 60 < e := by omega
  refine ⟨?_, ?_, ?_, ?_, ?_⟩
  · unfold refresh_token_if_necessary
    rw [htok]
    simp only [hrt, Option.isNone_some, Bool.false_eq_true, if_false, hexp]
    rw [if_neg hdue']
    rw [hmbb]
    cases hvwrt : pyLookup vw "refresh_token" with
    | some v =>
        cases hb : st.bearer_token_json with
        | none =>
            exact ⟨false,
              { st with vwToken := some vw,
                        mbboauthToken := some (pySet tok "refresh_token" v) },
              ["mbboauth_refresh"],
              by simp [hvwrt, hb], by simp [mbbAfterRefresh, hvwrt]⟩
        | some b0 =>
            cases hidk : env.idk with
            | error u =>
                exact ⟨false,
                  { st with vwToken := some vw,
                            mbboauthToken := some (pySet tok "refresh_token" v) },
                  ["mbboauth_refresh", "idk_token"],
                  by simp [hvwrt, hb, hidk], by simp [mbbAfterRefresh, hvwrt]⟩
            | ok bearer =>
                cases hat : pyLookup bearer "access_token" with
                | none =>
                    exact ⟨false,
                      { st with vwToken := some vw,
                                mbboauthToken := some (pySet tok "refresh_token" v),
                                bearer_token_json := some bearer },
                      ["mbboauth_refresh", "idk_token"],
                      by simp [hvwrt, hb, hidk, hat], by simp [mbbAfterRefresh, hvwrt]⟩
                | some at0 =>
                    cases hazs : env.azs with
                    | error u =>
                        exact ⟨false,
                          { st with vwToken := some vw,
                                    mbboauthToken := some (pySet tok "refresh_token" v),
                                    bearer_token_json := some bearer },
                          ["mbboauth_refresh", "idk_token", "azs_token"],
                          by simp [hvwrt, hb, hidk, hat, hazs],
                          by simp [mbbAfterRefresh, hvwrt]⟩
                    | ok azs =>
                        exact ⟨true,
                          { st with vwToken := some vw,
                                    mbboauthToken := some (pySet tok "refresh_token" v),
                                    bearer_token_json := some bearer,
                                    audiToken := some azs },
                          ["mbboauth_refresh", "idk_token", "azs_token"],
                          by simp [hvwrt, hb, hidk, hat, hazs],
                          by simp [mbbAfterRefresh, hvwrt]⟩
    | none =>
        cases hb : st.bearer_token_json with
        | none =>
            exact ⟨false, { st with vwToken := some vw }, ["mbboauth_refresh"],
              by simp [hvwrt, hb, htok], by simp [mbbAfterRefresh, hvwrt, htok]⟩
        | some b0 =>
            cases hidk : env.idk with
            | error u =>
                exact ⟨false, { st with vwToken := some vw },
                  ["mbboauth_refresh", "idk_token"],
                  by simp [hvwrt, hb, hidk, htok], by simp [mbbAfterRefresh, hvwrt, htok]⟩
            | ok bearer =>
                cases hat : pyLookup bearer "access_token" with
                | none =>
                    exact ⟨false,
                      { st with vwToken := some vw, bearer_token_json := some bearer },
                      ["mbboauth_refresh", "idk_token"],
                      by simp [hvwrt, hb, hidk, hat, htok],
                      by simp [mbbAfterRefresh, hvwrt, htok]⟩
                | some at0 =>
                    cases hazs : env.azs with
                    | error u =>
                        exact ⟨false,
                          { st with vwToken := some vw,
                                    bearer_token_json := some bearer },
                          ["mbboauth_refresh", "idk_token", "azs_token"],
                          by simp [hvwrt, hb, hidk, hat, hazs, htok],
                          by simp [mbbAfterRefresh, hvwrt, htok]⟩
                    | ok azs =>
                        exact ⟨true,
                          { st with vwToken := some vw,
                                    bearer_token_json := some bearer,
                                    audiToken := some azs },
                          ["mbboauth_refresh", "idk_token", "azs_token"],
                          by simp [hvwrt, hb, hidk, hat, hazs, htok],
                          by simp [mbbAfterRefresh, hvwrt, htok]⟩
  · intro k hk
    unfold mbbAfterRefresh
    cases hvwrt : pyLookup vw "refresh_token" with
    | some v => exact pyLookup_pySet_ne tok "refresh_token" k v hk
    | none => rfl
  · unfold mbbAfterRefresh
    cases hvwrt : pyLookup vw "refresh_token" with
    | some v => exact pyLookup_pySet_ne tok "refresh_token" "expires_in" v (by decide)
    | none => rfl
  · intro v hv
    unfold mbbAfterRefresh
    rw [hv]
    exact pyLookup_pySet_self tok "refresh_token" v
  · intro hv
    unfold mbbAfterRefresh
    rw [hv]

def tokW5 : Tok := [("refresh_token", JVal.s "r0"), ("expires_in", JVal.n 100)]

def vwW5 : Tok := [("access_token", JVal.s "a1"), ("refresh_token", JVal.s "r1")]

def stW5 : AudiState := ⟨some tokW5, none, none, none⟩

def envW5 : RefreshEnv := ⟨.ok vwW5, .error (), .error ()⟩

/-- Witness for `legacy_refresh_frame` at a concrete due token whose
refresh response carries a new refresh token. -/
theorem legacy_refresh_frame_witness :
    (∃ b st' log, refresh_token_if_necessary envW5 stW5 0 = (.ok (b, st'), log)
        ∧ st'.mbboauthToken = some (mbbAfterRefresh tokW5 vwW5))
      ∧ (∀ k, k ≠ "refresh_token" →
            pyLookup (mbbAfterRefresh tokW5 vwW5) k = pyLookup tokW5 k)
      ∧ pyLookup (mbbAfterRefresh tokW5 vwW5) "expires_in" = pyLookup tokW5 "expires_in"
      ∧ (∀ v, pyLookup vwW5 "refresh_token" = some v →
            pyLookup (mbbAfterRefresh tokW5 vwW5) "refresh_token" = some v)
      ∧ (pyLookup vwW5 "refresh_token" = none → mbbAfterRefresh tokW5 vwW5 = tokW5) :=
  legacy_refresh_frame envW5 stW5 0 tokW5 (JVal.s "r0") 100 vwW5 rfl (by decide)
    (by decide) (by decide) rfl

def tokC1 : Tok := [("refresh_token", JVal.s "r0"), ("expires_in", JVal.n 100)]

def stC1 : AudiState :=
  ⟨some tokC1, some [("access_token", JVal.s "oldvw")],
   some [("refresh_token", JVal.s "b0")], none⟩

def envC1 : RefreshEnv :=
  ⟨.ok [("access_token", JVal.s "newvw"), ("refresh_token", JVal.s "r1")],
   .error (), .error ()⟩

def stC1after : AudiState :=
  ⟨some [("refresh_token", JVal.s "r1"), ("expires_in", JVal.n 100)],
   some [("access_token", JVal.s "newvw"), ("refresh_token", JVal.s "r1")],
   some [("refresh_token", JVal.s "b0")], none⟩

/-- Counterexample to C1 as stated: with a due token, a successful MBB
refresh exchange and a failing identity (IDK) token exchange, the call
returns `false` but the vw token and the stored `refresh_token` of the
legacy token have already been overwritten — a failing refresh does not
leave every token with its pre-call value. -/
theorem refresh_failure_mutates_tokens_cex :
    envC1.idk = .error ()
      ∧ refresh_token_if_necessary envC1 stC1 0
          = (.ok (false, stC1after), ["mbboauth_refresh", "idk_token"])
      ∧ stC1after.vwToken ≠ stC1.vwToken
      ∧ stC1after.mbboauthToken ≠ stC1.mbboauthToken := by
  refine ⟨rfl, rfl, by decide, by decide⟩

/-- C1 amended: if any step of the refresh chain raises, the call
returns `false` and the authorization-server token (`audiToken`) is
unchanged; however, tokens stored by steps that completed before the
failing step keep their new values.  Concretely: a first-step failure
preserves the whole state; a failure at (or while preparing) the second
step keeps the new vw token and the updated legacy `refresh_token` but
preserves the identity bearer token and `audiToken`; a failure at (or
while preparing) the third step additionally keeps the new identity
bearer token but still preserves `audiToken`. -/
theorem refresh_failure_partial_frame (env : RefreshEnv) (st : AudiState)
    (elapsed_sec : Int) (tok : Tok) (rt : JVal) (e : Int)
    (htok : st.mbboauthToken = some tok)
    (hrt : pyLookup tok "refresh_token" = some rt)
    (hexp : pyLookup tok "expires_in" = some (JVal.n e))
    (hdue : ¬ elapsed_sec + 300 < e) :
    (env.mbb = .error () →
        refresh_token_if_necessary env st elapsed_sec
          = (.ok (false, st), ["mbboauth_refresh"]))
      ∧ (∀ vw, env.mbb = .ok vw →
          (st.bearer_token_json = none ∨ env.idk = .error ()) →
          ∃ st' log, refresh_token_if_necessary env st elapsed_sec
              = (.ok (false, st'), log)
            ∧ st'.vwToken = some vw
            ∧ st'.mbboauthToken = some (mbbAfterRefresh tok vw)
            ∧ st'.bearer_token_json = st.bearer_token_json
            ∧ st'.audiToken = st.audiToken)
      ∧ (∀ vw bearer, env.mbb = .ok vw → env.idk = .ok bearer →
          st.bearer_token_json ≠ none →
          (pyLookup bearer "access_token" = none ∨ env.azs = .error ()) →
          ∃ st' log, refresh_token_if_necessary env st elapsed_sec
              = (.ok (false, st'), log)
            ∧ st'.vwToken = some vw
            ∧ st'.mbboauthToken = some (mbbAfterRefresh tok vw)
            ∧ st'.bearer_token_json = some bearer
            ∧ st'.audiToken = st.audiToken) := by
  have hdue' : ¬ elapsed_sec + 5 * 60 < e := by omega
  refine ⟨?_, ?_, ?_⟩
  · intro hmbb
    unfold refresh_token_if_necessary
    rw [htok]
    simp only [hrt, Option.isNone_some, Bool.false_eq_true, if_false, hexp]
    rw [if_neg hdue', hmbb]
  · intro vw hmbb hfail
    unfold refresh_token_if_necessary
    rw [htok]
    simp only [hrt, Option.isNone_some, Bool.false_eq_true, if_false, hexp]
    rw [if_neg hdue', hmbb]
    cases hvwrt : pyLookup vw "refresh_token" with
    | some v =>
        rcases hfail with hb | hidk
        · exact ⟨{ st with vwToken := some vw,
                           mbboauthToken := some (pySet tok "refresh_token" v) },
            ["mbboauth_refresh"],
            by simp [hvwrt, hb], by simp, by simp [mbbAfterRefresh, hvwrt],
            by simp [hb], by simp⟩
        · cases hb : st.bearer_token_json with
          | none =>
              exact ⟨{ st with vwToken := some vw,
                               mbboauthToken := some (pySet tok "refresh_token" v) },
                ["mbboauth_refresh"],
                by simp [hvwrt, hb], by simp, by simp [mbbAfterRefresh, hvwrt],
                by simp [hb], by simp⟩
          | some b0 =>
              exact ⟨{ st with vwToken := some vw,
                               mbboauthToken := some (pySet tok "refresh_token" v) },
                ["mbboauth_refresh", "idk_token"],
                by simp [hvwrt, hb, hidk], by simp, by simp [mbbAfterRefresh, hvwrt],
                by simp [hb], by simp⟩
    | none =>
        rcases hfail with hb | hidk
        · exact ⟨{ st with vwToken := some vw }, ["mbboauth_refresh"],
            by simp [hvwrt, hb, htok], by simp, by simp [mbbAfterRefresh, hvwrt, htok],
            by simp [hb], by simp⟩
        · cases hb : st.bearer_token_json with
          | none =>
              exact ⟨{ st with vwToken := some vw }, ["mbboauth_refresh"],
                by simp [hvwrt, hb, htok], by simp,
                by simp [mbbAfterRefresh, hvwrt, htok], by simp [hb], by simp⟩
          | some b0 =>
              exact ⟨{ st with vwToken := some vw }, ["mbboauth_refresh", "idk_token"],
                by simp [hvwrt, hb, hidk, htok], by simp,
                by simp [mbbAfterRefresh, hvwrt, htok], by simp [hb], by simp⟩
  · intro vw bearer hmbb hidk hbne hfail
    unfold refresh_token_if_necessary
    rw [htok]
    simp only [hrt, Option.isNone_some, Bool.false_eq_true, if_false, hexp]
    rw [if_neg hdue', hmbb]
    cases hb : st.bearer_token_json with
    | none => exact absurd hb hbne
    | some b0 =>
        cases hvwrt : pyLookup vw "refresh_token" with
        | some v =>
            rcases hfail with hat | hazs
            · exact ⟨{ st with vwToken := some vw,
                               mbboauthToken := some (pySet tok "refresh_token" v),
                               bearer_token_json := some bearer },
                ["mbboauth_refresh", "idk_token"],
                by simp [hvwrt, hb, hidk, hat], by simp,
                by simp [mbbAfterRefresh, hvwrt], by simp, by simp⟩
            · cases hat : pyLookup bearer "access_token" with
              | none =>
                  exact ⟨{ st with vwToken := some vw,
                                   mbboauthToken := some (pySet tok "refresh_token" v),
                                   bearer_token_json := some bearer },
                    ["mbboauth_refresh", "idk_token"],
                    by simp [hvwrt, hb, hidk, hat], by simp,
                    by simp [mbbAfterRefresh, hvwrt], by simp, by simp⟩
              | some at0 =>
                  exact ⟨{ st with vwToken := some vw,
                                   mbboauthToken := some (pySet tok "refresh_token" v),
                                   bearer_token_json := some bearer },
                    ["mbboauth_refresh", "idk_token", "azs_token"],
                    by simp [hvwrt, hb, hidk, hat, hazs], by simp,
                    by simp [mbbAfterRefresh, hvwrt], by simp, by simp⟩
        | none =>
            rcases hfail with hat | hazs
            · exact ⟨{ st with vwToken := some vw, bearer_token_json := some bearer },
                ["mbboauth_refresh", "idk_token"],
                by simp [hvwrt, hb, hidk, hat, htok], by simp,
                by simp [mbbAfterRefresh, hvwrt, htok], by simp, by simp⟩
            · cases hat : pyLookup bearer "access_token" with
              | none =>
                  exact ⟨{ st with vwToken := some vw,
                                   bearer_token_json := some bearer },
                    ["mbboauth_refresh", "idk_token"],
                    by simp [hvwrt, hb, hidk, hat, htok], by simp,
                    by simp [mbbAfterRefresh, hvwrt, htok], by simp, by simp⟩
              | some at0 =>
                  exact ⟨{ st with vwToken := some vw,
                                   bearer_token_json := some bearer },
                    ["mbboauth_refresh", "idk_token", "azs_token"],
                    by simp [hvwrt, hb, hidk, hat, hazs, htok], by simp,
                    by simp [mbbAfterRefresh, hvwrt, htok], by simp, by simp⟩

/-- Witness for `refresh_failure_partial_frame`: a first-step failure at
a concrete due token preserves the whole state. -/
theorem refresh_failure_partial_frame_witness :
    refresh_token_if_necessary ⟨.error (), .error (), .error ()⟩
        ⟨some tokW5, none, none, none⟩ 0
      = (.ok (false, ⟨some tokW5, none, none, none⟩), ["mbboauth_refresh"]) :=
  (refresh_failure_partial_frame ⟨.error (), .error (), .error ()⟩
      ⟨some tokW5, none, none, none⟩ 0 tokW5 (JVal.s "r0") 100 rfl (by decide)
      (by decide) (by decide)).1 rfl

def MAX_RESPONSE_ATTEMPTS : Nat := 10

def REQUEST_STATUS_SLEEP : Nat := 10

/-- Python `"{}".format(status)` for the status slot of the failure
message: `None` prints as `"None"`, a string prints as itself. -/
def statusRepr : Option String → String
  | none => "None"
  | some s => s

/-- The polling loop of `AudiService.check_request_succeeded`
(audi_services.py lines 870–891), with the per-attempt network GET and
`get_attr(res, path)` extraction abstracted into `polls i` (the status
extracted on the i-th attempt, `none` when the field is absent).  Fuel
counts the remaining iterations of `range(MAX_RESPONSE_ATTEMPTS)`; the
second result component is the number of attempts performed, each
preceded by a `REQUEST_STATUS_SLEEP`-second sleep. -/
def check_loop (polls : Nat → Option String) (action successCode : String)
    (failedCode : Option String) : Nat → Nat → Except String Unit × Nat
  | 0, i => (.error ("Cannot " ++ action ++ ", operation timed out"), i)
  | fuel + 1, i =>
      if polls i = none ∨ (failedCode ≠ none ∧ polls i = failedCode) then
        (.error ("Cannot " ++ action ++ ", return code '" ++ statusRepr (polls i) ++ "'"),
         i + 1)
      else if polls i = some successCode then (.ok (), i + 1)
      else check_loop polls action successCode failedCode fuel (i + 1)

/-- Embedding of `AudiService.check_request_succeeded`. -/
def check_request_succeeded (polls : Nat → Option String) (action successCode : String)
    (failedCode : Option String) : Except String Unit × Nat :=
  check_loop polls action successCode failedCode MAX_RESPONSE_ATTEMPTS 0

/-- A poll status that is neither the failure condition nor the success
literal: the loop continues past it. -/
def nonTerminal (successCode : String) (failedCode status : Option String) : Prop :=
  ¬(status = none ∨ (failedCode ≠ none ∧ status = failedCode)) ∧ status ≠ some successCode

instance (successCode : String) (failedCode status : Option String) :
    Decidable (nonTerminal successCode failedCode status) := by
  unfold nonTerminal
  infer_instance

theorem check_loop_step (polls : Nat → Option String) (action successCode : String)
    (failedCode : Option String) (fuel i : Nat)
    (h : nonTerminal successCode failedCode (polls i)) :
    check_loop polls action successCode failedCode (fuel + 1) i
      = check_loop polls action successCode failedCode fuel (i + 1) := by
  conv_lhs => rw [check_loop]
  rw [if_neg h.1, if_neg h.2]

theorem check_loop_skip (polls : Nat → Option String) (action successCode : String)
    (failedCode : Option String) :
    ∀ (k fuel i : Nat),
      (∀ j, j < k → nonTerminal successCode failedCode (polls (i + j))) →
      check_loop polls action successCode failedCode (k + fuel) i
        = check_loop polls action successCode failedCode fuel (i + k) := by
  intro k
  induction k with
  | zero => intro fuel i _; simp
  | succ k ih =>
      intro fuel i h
      have h0 : nonTerminal successCode failedCode (polls i) := by
        have := h 0 (Nat.succ_pos k)
        simpa using this
      have hstep := check_loop_step polls action successCode failedCode (k + fuel) i h0
      have hrest := ih fuel (i + 1) (by
        intro j hj
        have := h (j + 1) (Nat.succ_lt_succ hj)
        have he : i + (j + 1) = i + 1 + j := by omega
        rwa [he] at this)
      calc check_loop polls action successCode failedCode (k + 1 + fuel) i
          = check_loop polls action successCode failedCode (k + fuel + 1) i := by
            have : k + 1 + fuel = k + fuel + 1 := by omega
            rw [this]
        _ = check_loop polls action successCode failedCode (k + fuel) (i + 1) := hstep
        _ = check_loop polls action successCode failedCode fuel (i + 1 + k) := hrest
        _ = check_loop polls action successCode failedCode fuel (i + (k + 1)) := by
            have : i + 1 + k = i + (k + 1) := by omega
            rw [this]

/-- C3: the confirmation protocol returns normally at the first poll
whose status equals the success literal; raises an operation-failed
error whose message embeds the action label immediately at the first
poll whose status is absent or equals the failure literal, making no
further attempts; and raises a timeout error after exactly
`MAX_RESPONSE_ATTEMPTS = 10` attempts (one per `REQUEST_STATUS_SLEEP =
10`-second interval) when no terminal status occurs. -/
theorem check_request_succeeded_protocol (polls : Nat → Option String)
    (action successCode : String) (failedCode : Option String)
    (hdistinct : failedCode ≠ some successCode) :
    (∀ i, i < MAX_RESPONSE_ATTEMPTS →
       (∀ j, j < i → nonTerminal successCode failedCode (polls j)) →
       polls i = some successCode →
       check_request_succeeded polls action successCode failedCode = (.ok (), i + 1))
    ∧ (∀ i, i < MAX_RESPONSE_ATTEMPTS →
       (∀ j, j < i → nonTerminal successCode failedCode (polls j)) →
       (polls i = none ∨ (failedCode ≠ none ∧ polls i = failedCode)) →
       ∃ msg, check_request_succeeded polls action successCode failedCode
           = (.error msg, i + 1)
         ∧ msg = "Cannot " ++ action ++ ", return code '" ++ statusRepr (polls i) ++ "'"
         ∧ ∃ p q, msg = p ++ action ++ q)
    ∧ ((∀ j, j < MAX_RESPONSE_ATTEMPTS → nonTerminal successCode failedCode (polls j)) →
       check_request_succeeded polls action successCode failedCode
         = (.error ("Cannot " ++ action ++ ", operation timed out"),
            MAX_RESPONSE_ATTEMPTS))
    ∧ MAX_RESPONSE_ATTEMPTS = 10 ∧ REQUEST_STATUS_SLEEP = 10 := by
  refine ⟨?_, ?_, ?_, rfl, rfl⟩
  · intro i hi hpre hsucc
    unfold check_request_succeeded
    obtain ⟨m, hm⟩ : ∃ m, MAX_RESPONSE_ATTEMPTS = i + (m + 1) :=
      ⟨MAX_RESPONSE_ATTEMPTS - i - 1, by unfold MAX_RESPONSE_ATTEMPTS at hi ⊢; omega⟩
    rw [hm]
    have hskip := check_loop_skip polls action successCode failedCode i (m + 1) 0
      (by intro j hj; simpa using hpre j hj)
    rw [Nat.add_comm i (m + 1)] at hskip ⊢
    rw [hskip]
    unfold check_loop
    have hnf : ¬(polls (0 + i) = none
        ∨ (failedCode ≠ none ∧ polls (0 + i) = failedCode)) := by
      simp only [Nat.zero_add, hsucc]
      rintro (h | ⟨-, h⟩)
      · exact Option.noConfusion h
      · exact hdistinct h.symm
    rw [if_neg hnf, if_pos (by simpa using hsucc)]
    simp
  · intro i hi hpre hfail
    unfold check_request_succeeded
    obtain ⟨m, hm⟩ : ∃ m, MAX_RESPONSE_ATTEMPTS = i + (m + 1) :=
      ⟨MAX_RESPONSE_ATTEMPTS - i - 1, by unfold MAX_RESPONSE_ATTEMPTS at hi ⊢; omega⟩
    rw [hm]
    have hskip := check_loop_skip polls action successCode failedCode i (m + 1) 0
      (by intro j hj; simpa using hpre j hj)
    rw [Nat.add_comm i (m + 1)] at hskip ⊢
    rw [hskip]
    unfold check_loop
    rw [if_pos (by simpa using hfail)]
    refine ⟨_, by simp, rfl, "Cannot ", ", return code '" ++ statusRepr (polls (0 + i)) ++ "'", ?_⟩
    simp [String.append_assoc]
  · intro hall
    unfold check_request_succeeded
    have hskip := check_loop_skip polls action successCode failedCode
      MAX_RESPONSE_ATTEMPTS 0 0 (by intro j hj; simpa using hall j hj)
    rw [Nat.add_zero] at hskip
    rw [hskip]
    unfold check_loop
    simp

/-- Witness for `check_request_succeeded_protocol`: the status sequence
queued, queued, succeeded returns success after 3 polls. -/
theorem check_request_succeeded_protocol_witness :
    check_request_succeeded
      (fun i => if i = 2 then some "succeeded" else some "queued")
      "lock vehicle" "succeeded" (some "failed") = (.ok (), 3) :=
  (check_request_succeeded_protocol
      (fun i => if i = 2 then some "succeeded" else some "queued")
      "lock vehicle" "succeeded" (some "failed") (by decide)).1 2 (by decide)
    (by decide) (by decide)

/-- A Python value as returned by the JSON-decoding GET of the
home-region endpoint: `None`, a string, or a dict. -/
inductive PyVal where
  | none
  | str (s : String)
  | obj (fields : List (String × PyVal))

/-- Python `v.get(k)`: succeeds only on a dict (otherwise
`AttributeError`), returning `None` for a missing key. -/
def pyGetAttr : PyVal → String → Except Unit (Option PyVal)
  | .obj fields, k => .ok (pyLookup fields k)
  | _, _ => .error ()

/-- The characters of `s.split(sep)[0]`: the prefix of `s` before the
first occurrence of `sep`, or all of `s` when `sep` does not occur. -/
def splitFirstAux (pat : List Char) : List Char → List Char
  | [] => []
  | c :: cs => if pat.isPrefixOf (c :: cs) then [] else c :: splitFirstAux pat cs

/-- Python `s.split(sep)[0]` for non-empty `sep`. -/
def pySplitFirst (s pat : String) : String := String.mk (splitFirstAux pat.toList s.toList)

/-- The per-VIN home-region caches of `AudiService`
(`self._homeRegion` and `self._homeRegionSetter`). -/
structure HRState where
  homeRegion : PyDict String
  homeRegionSetter : PyDict String
  deriving DecidableEq, Repr

/-- `v.get(k)` followed by the `is not None` test of the guard:
`.ok (some w)` when `v` is a dict carrying a non-`None` value `w` at
`k`, `.ok none` when the key is absent or its value is `None`,
`.error ()` when `v` is not a dict. -/
def pyGetNotNone (v : PyVal) (k : String) : Except Unit (Option PyVal) :=
  match pyGetAttr v k with
  | .error _ => .error ()
  | .ok Option.none => .ok Option.none
  | .ok (some PyVal.none) => .ok Option.none
  | .ok (some w) => .ok (some w)

/-- The four-part guard of `_fill_home_region` (audi_services.py lines
376–381): `.ok (some c)` when `res`, `res["homeRegion"]`,
`res["homeRegion"]["baseUri"]` and its `"content"` are all present and
not `None` (with `c` the content), `.ok none` when the conjunction is
false, `.error ()` when evaluating it raises (attribute access on a
non-dict). -/
def fill_guard (res : PyVal) : Except Unit (Option PyVal) :=
  match res with
  | PyVal.none => .ok Option.none
  | _ =>
    match pyGetNotNone res "homeRegion" with
    | .error _ => .error ()
    | .ok Option.none => .ok Option.none
    | .ok (some hr) =>
      match pyGetNotNone hr "baseUri" with
      | .error _ => .error ()
      | .ok Option.none => .ok Option.none
      | .ok (some bu) => pyGetNotNone bu "content"

/-- The default base URLs written to both caches before the network
query is attempted (audi_services.py lines 365–366). -/
def fill_defaults (st : HRState) (vin : String) : HRState :=
  { homeRegion := pySet st.homeRegion vin "https://msg.volkswagen.de",
    homeRegionSetter :=
      pySet st.homeRegionSetter vin "https://mal-1a.prd.ece.vwg-connect.com" }

/-- Body of the guard's then-branch (audi_services.py lines 382–387):
`uri.split`/`replace` require a string content (a non-string raises,
caught by the enclosing `except`). -/
def fill_body (c : PyVal) (st0 : HRState) (vin : String) : Except Unit HRState :=
  match c with
  | .str uri =>
      if uri ≠ "https://mal-1a.prd.ece.vwg-connect.com/api" then
        let setter := pySplitFirst uri "/api"
        .ok { homeRegionSetter := pySet st0.homeRegionSetter vin setter,
              homeRegion := pySet st0.homeRegion vin (setter.replace "mal-" "fal-") }
      else .ok st0
  | _ => .error ()

/-- The `try` block of `_fill_home_region` run on the post-default state
`st0`; `resp` is the outcome of `use_token` plus the home-region GET
(`.error ()` when either raises). -/
def fill_try (resp : Except Unit PyVal) (st0 : HRState) (vin : String) :
    Except Unit HRState :=
  match resp with
  | .error _ => .error ()
  | .ok res =>
    match fill_guard res with
    | .error _ => .error ()
    | .ok Option.none => .ok st0
    | .ok (some c) => fill_body c st0 vin

/-- Embedding of `AudiService._fill_home_region(vin)` (audi_services.py
lines 364–388): write the defaults, then run the query under
`try ... except Exception: pass`. -/
def fill_home_region (resp : Except Unit PyVal) (st : HRState) (vin : String) : HRState :=
  match fill_try resp (fill_defaults st vin) vin with
  | .ok st' => st'
  | .error _ => fill_defaults st vin

/-- Embedding of `AudiService._get_home_region(vin)` (audi_services.py
lines 390–396).  Result: (returned URL, post-state, number of network
requests attempted).  The final read `self._homeRegion[vin]` is total
because `fill_home_region` always stores a value for `vin`; the `getD`
default is unreachable (proved below). -/
def get_home_region (resp : Except Unit PyVal) (st : HRState) (vin : String) :
    String × HRState × Nat :=
  match pyLookup st.homeRegion vin with
  | some url => (url, st, 0)
  | Option.none =>
      ((pyLookup (fill_home_region resp st vin).homeRegion vin).getD "",
       fill_home_region resp st vin, 1)

/-- Embedding of `AudiService._get_home_region_setter(vin)`
(audi_services.py lines 398–404). -/
def get_home_region_setter (resp : Except Unit PyVal) (st : HRState) (vin : String) :
    String × HRState × Nat :=
  match pyLookup st.homeRegionSetter vin with
  | some url => (url, st, 0)
  | Option.none =>
      ((pyLookup (fill_home_region resp st vin).homeRegionSetter vin).getD "",
       fill_home_region resp st vin, 1)

theorem fill_home_region_mem (resp : Except Unit PyVal) (st : HRState) (vin : String) :
    (∃ u, pyLookup (fill_home_region resp st vin).homeRegion vin = some u)
    ∧ (∃ v, pyLookup (fill_home_region resp st vin).homeRegionSetter vin = some v) := by
  have hdef : (∃ u, pyLookup (fill_defaults st vin).homeRegion vin = some u)
      ∧ (∃ v, pyLookup (fill_defaults st vin).homeRegionSetter vin = some v) :=
    ⟨⟨_, pyLookup_pySet_self _ _ _⟩, ⟨_, pyLookup_pySet_self _ _ _⟩⟩
  unfold fill_home_region
  cases hft : fill_try resp (fill_defaults st vin) vin with
  | error e => exact hdef
  | ok st' =>
      -- st' is either st0 itself or the fill_body update, which re-sets vin
      cases resp with
      | error e => exact absurd hft (by simp [fill_try])
      | ok res =>
          simp only [fill_try] at hft
          cases hg : fill_guard res with
          | error e => rw [hg] at hft; exact absurd hft (by simp)
          | ok oc =>
              rw [hg] at hft
              cases oc with
              | none =>
                  simp only [Except.ok.injEq] at hft
                  rw [← hft]
                  exact hdef
              | some c =>
                  simp only at hft
                  cases c with
                  | str uri =>
                      by_cases hu : uri = "https://mal-1a.prd.ece.vwg-connect.com/api"
                      · simp only [fill_body, hu, ne_eq, not_true_eq_false, if_false,
                          Except.ok.injEq] at hft
                        rw [← hft]
                        exact hdef
                      · simp only [fill_body, ne_eq, hu, not_false_eq_true, if_true,
                          Except.ok.injEq] at hft
                        rw [← hft]
                        exact ⟨⟨_, pyLookup_pySet_self _ _ _⟩, ⟨_, pyLookup_pySet_self _ _ _⟩⟩
                  | none => exact absurd hft (by simp [fill_body])
                  | obj fields => exact absurd hft (by simp [fill_body])

theorem get_home_region_hit (resp : Except Unit PyVal) (st : HRState) (vin url : String)
    (h : pyLookup st.homeRegion vin = some url) :
    get_home_region resp st vin = (url, st, 0) := by
  simp [get_home_region, h]

theorem get_home_region_setter_hit (resp : Except Unit PyVal) (st : HRState)
    (vin url : String) (h : pyLookup st.homeRegionSetter vin = some url) :
    get_home_region_setter resp st vin = (url, st, 0) := by
  simp [get_home_region_setter, h]

/-- After any `_get_home_region` call, the returned URL is exactly the
cached value for that VIN in the post-state. -/
theorem get_home_region_cached (resp : Except Unit PyVal) (st : HRState) (vin : String) :
    pyLookup ((get_home_region resp st vin).2.1).homeRegion vin
      = some ((get_home_region resp st vin).1) := by
  unfold get_home_region
  cases h : pyLookup st.homeRegion vin with
  | some url => simpa using h
  | none =>
      obtain ⟨u, hu⟩ := (fill_home_region_mem resp st vin).1
      simp [hu]

theorem get_home_region_setter_cached (resp : Except Unit PyVal) (st : HRState)
    (vin : String) :
    pyLookup ((get_home_region_setter resp st vin).2.1).homeRegionSetter vin
      = some ((get_home_region_setter resp st vin).1) := by
  unfold get_home_region_setter
  cases h : pyLookup st.homeRegionSetter vin with
  | some url => simpa using h
  | none =>
      obtain ⟨v, hv⟩ := (fill_home_region_mem resp st vin).2
      simp [hv]

/-- After a `_get_home_region` call from a state whose two caches agree
on whether the VIN is resolved, the setter cache is populated too. -/
theorem get_home_region_state_setter_mem (resp : Except Unit PyVal) (st : HRState)
    (vin : String)
    (hsync : pyLookup st.homeRegion vin = Option.none
       ↔ pyLookup st.homeRegionSetter vin = Option.none) :
    ∃ v, pyLookup ((get_home_region resp st vin).2.1).homeRegionSetter vin = some v := by
  unfold get_home_region
  cases h : pyLookup st.homeRegion vin with
  | some url =>
      cases hs : pyLookup st.homeRegionSetter vin with
      | some v => exact ⟨v, by simp [hs]⟩
      | none =>
          rw [hsync.mpr hs] at h
          exact Option.noConfusion h
  | none =>
      obtain ⟨v, hv⟩ := (fill_home_region_mem resp st vin).2
      exact ⟨v, by simpa using hv⟩

theorem get_home_region_setter_state_region_mem (resp : Except Unit PyVal) (st : HRState)
    (vin : String)
    (hsync : pyLookup st.homeRegion vin = Option.none
       ↔ pyLookup st.homeRegionSetter vin = Option.none) :
    ∃ u, pyLookup ((get_home_region_setter resp st vin).2.1).homeRegion vin = some u := by
  unfold get_home_region_setter
  cases h : pyLookup st.homeRegionSetter vin with
  | some url =>
      cases hs : pyLookup st.homeRegion vin with
      | some u => exact ⟨u, by simp [hs]⟩
      | none =>
          rw [hsync.mp hs] at h
          exact Option.noConfusion h
  | none =>
      obtain ⟨u, hu⟩ := (fill_home_region_mem resp st vin).1
      exact ⟨u, by simpa using hu⟩

/-- C8: once one call to `_get_home_region` or `_get_home_region_setter`
has completed for a VIN, every later call for the same VIN — to either
function, under any network environment `resp'` — returns the cached URL
pair, leaves the state unchanged, and attempts zero network requests.
The hypothesis `hsync` is the invariant, maintained by
`fill_home_region` (which populates both caches together), that the two
caches agree on whether a VIN is resolved. -/
theorem home_region_resolved_once (resp resp' : Except Unit PyVal) (st : HRState)
    (vin : String)
    (hsync : pyLookup st.homeRegion vin = Option.none
       ↔ pyLookup st.homeRegionSetter vin = Option.none) :
    (get_home_region resp' ((get_home_region resp st vin).2.1) vin
        = ((get_home_region resp st vin).1, (get_home_region resp st vin).2.1, 0))
    ∧ (∃ v, pyLookup ((get_home_region resp st vin).2.1).homeRegionSetter vin = some v
        ∧ get_home_region_setter resp' ((get_home_region resp st vin).2.1) vin
            = (v, (get_home_region resp st vin).2.1, 0))
    ∧ (get_home_region_setter resp' ((get_home_region_setter resp st vin).2.1) vin
        = ((get_home_region_setter resp st vin).1,
           (get_home_region_setter resp st vin).2.1, 0))
    ∧ (∃ u, pyLookup ((get_home_region_setter resp st vin).2.1).homeRegion vin = some u
        ∧ get_home_region resp' ((get_home_region_setter resp st vin).2.1) vin
            = (u, (get_home_region_setter resp st vin).2.1, 0)) := by
  refine ⟨?_, ?_, ?_, ?_⟩
  · exact get_home_region_hit resp' _ vin _ (get_home_region_cached resp st vin)
  · obtain ⟨v, hv⟩ := get_home_region_state_setter_mem resp st vin hsync
    exact ⟨v, hv, get_home_region_setter_hit resp' _ vin v hv⟩
  · exact get_home_region_setter_hit resp' _ vin _ (get_home_region_setter_cached resp st vin)
  · obtain ⟨u, hu⟩ := get_home_region_setter_state_region_mem resp st vin hsync
    exact ⟨u, hu, get_home_region_hit resp' _ vin u hu⟩

/-- Witness for `home_region_resolved_once`: from an empty cache with a
failing network query, the second call returns the default URL with no
further request. -/
theorem home_region_resolved_once_witness :
    (get_home_region (.error ()) ((get_home_region (.error ()) ⟨[], []⟩ "WAUZZZ").2.1)
        "WAUZZZ"
      = ((get_home_region (.error ()) ⟨[], []⟩ "WAUZZZ").1,
         (get_home_region (.error ()) ⟨[], []⟩ "WAUZZZ").2.1, 0))
    ∧ (∃ v, pyLookup ((get_home_region (.error ()) ⟨[], []⟩ "WAUZZZ").2.1).homeRegionSetter
          "WAUZZZ" = some v
        ∧ get_home_region_setter (.error ())
            ((get_home_region (.error ()) ⟨[], []⟩ "WAUZZZ").2.1) "WAUZZZ"
          = (v, (get_home_region (.error ()) ⟨[], []⟩ "WAUZZZ").2.1, 0))
    ∧ (get_home_region_setter (.error ())
          ((get_home_region_setter (.error ()) ⟨[], []⟩ "WAUZZZ").2.1) "WAUZZZ"
        = ((get_home_region_setter (.error ()) ⟨[], []⟩ "WAUZZZ").1,
           (get_home_region_setter (.error ()) ⟨[], []⟩ "WAUZZZ").2.1, 0))
    ∧ (∃ u, pyLookup ((get_home_region_setter (.error ()) ⟨[], []⟩ "WAUZZZ").2.1).homeRegion
          "WAUZZZ" = some u
        ∧ get_home_region (.error ())
            ((get_home_region_setter (.error ()) ⟨[], []⟩ "WAUZZZ").2.1) "WAUZZZ"
          = (u, (get_home_region_setter (.error ()) ⟨[], []⟩ "WAUZZZ").2.1, 0)) :=
  home_region_resolved_once (.error ()) (.error ()) ⟨[], []⟩ "WAUZZZ" (by simp [pyLookup])

/-- C10: `_fill_home_region` writes the default base URLs into both
per-VIN caches before attempting the query and catches every exception
from it, so both getters always return a URL, never raise (the embedding
is total), never leave the cache entry absent, and yield the defaults
whenever the query fails or produces no override. -/
theorem home_region_defaults_on_failure (resp : Except Unit PyVal) (st : HRState)
    (vin : String) :
    (∃ u, pyLookup (fill_home_region resp st vin).homeRegion vin = some u)
    ∧ (∃ v, pyLookup (fill_home_region resp st vin).homeRegionSetter vin = some v)
    ∧ pyLookup ((get_home_region resp st vin).2.1).homeRegion vin
        = some ((get_home_region resp st vin).1)
    ∧ pyLookup ((get_home_region_setter resp st vin).2.1).homeRegionSetter vin
        = some ((get_home_region_setter resp st vin).1)
    ∧ (resp = .error () → fill_home_region resp st vin = fill_defaults st vin)
    ∧ (∀ res, resp = .ok res → fill_guard res = .ok Option.none →
         fill_home_region resp st vin = fill_defaults st vin)
    ∧ pyLookup (fill_defaults st vin).homeRegion vin = some "https://msg.volkswagen.de"
    ∧ pyLookup (fill_defaults st vin).homeRegionSetter vin
        = some "https://mal-1a.prd.ece.vwg-connect.com" := by
  refine ⟨(fill_home_region_mem resp st vin).1, (fill_home_region_mem resp st vin).2,
    get_home_region_cached resp st vin, get_home_region_setter_cached resp st vin,
    ?_, ?_, pyLookup_pySet_self _ _ _, pyLookup_pySet_self _ _ _⟩
  · intro h
    subst h
    rfl
  · intro res h hg
    subst h
    simp [fill_home_region, fill_try, hg]

/-- Witness for `home_region_defaults_on_failure` with an empty cache
and a response lacking the `homeRegion` field. -/
theorem home_region_defaults_on_failure_witness :
    fill_home_region (.ok (PyVal.obj [])) ⟨[], []⟩ "WAUZZZ"
      = fill_defaults ⟨[], []⟩ "WAUZZZ" :=
  ((home_region_defaults_on_failure (.ok (PyVal.obj [])) ⟨[], []⟩
      "WAUZZZ").2.2.2.2.2.1) (PyVal.obj []) rfl rfl

/-- Python `s.upper()` (ASCII content). -/
def pyUpper (s : String) : String := String.mk (s.toList.map Char.toUpper)

/-- Embedding of the authorization-server base-URL resolution step of
`login_request` (audi_services.py lines 1091–1100): the fallback
template is `https://{region}.bff.cariad.digital/login/v1/audi` with
region `emea` unless the country is `US`; when the key
`"authorizationServerBaseURLLive"` is present the code reads the value
of the *different* key
`"myAudiAuthorizationServerProxyServiceURLProduction"`, a lookup that
raises `KeyError` (`.error ()`) when that key is absent. -/
def resolve_authorizationServerBaseURLLive (country : String)
    (marketcfg : PyDict String) : Except Unit String :=
  let dflt := "https://"
    ++ (if pyUpper country ≠ "US" then "emea" else "na")
    ++ ".bff.cariad.digital/login/v1/audi"
  if (pyLookup marketcfg "authorizationServerBaseURLLive").isSome then
    match pyLookup marketcfg "myAudiAuthorizationServerProxyServiceURLProduction" with
    | some v => .ok v
    | Option.none => .error ()
  else .ok dflt

/-- C2 divergence: (i) a market configuration document containing the
dynamic field `authorizationServerBaseURLLive` but not the production
proxy key makes the resolution step raise `KeyError` instead of using
the dynamic value; (ii) with the field absent the documented fallback
literal is produced; (iii) when both keys are present the resolver
returns the value of the *other* key, not the guarded dynamic field. -/
theorem authorizationServerBaseURL_resolution_behaviour :
    resolve_authorizationServerBaseURLLive "DE"
        [("authorizationServerBaseURLLive", "https://dynamic.example/audi")]
      = .error ()
    ∧ resolve_authorizationServerBaseURLLive "DE" []
      = .ok "https://emea.bff.cariad.digital/login/v1/audi"
    ∧ resolve_authorizationServerBaseURLLive "US" []
      = .ok "https://na.bff.cariad.digital/login/v1/audi"
    ∧ resolve_authorizationServerBaseURLLive "DE"
        [("authorizationServerBaseURLLive", "https://dynamic.example/audi"),
         ("myAudiAuthorizationServerProxyServiceURLProduction", "https://proxy.example/audi")]
      = .ok "https://proxy.example/audi" := by
  exact ⟨rfl, rfl, rfl, rfl⟩

/-- Lowercase hex digit, as produced by `hashlib`'s `hexdigest()`. -/
def lowerHexChar (n : Nat) : Char := "0123456789abcdef".toList.getD n '?'

/-- Uppercase hex digit (spec side: "uppercase hexadecimal encoding"). -/
def upperHexChar (n : Nat) : Char := "0123456789ABCDEF".toList.getD n '?'

/-- `digest.hexdigest()`: two lowercase hex digits per byte. -/
def hexdigest (bs : List Nat) : List Char :=
  (bs.map (fun b => [lowerHexChar (b / 16), lowerHexChar (b % 16)])).flatten

/-- Spec-side uppercase hex encoding of a byte string. -/
def upperHexdigest (bs : List Nat) : List Char :=
  (bs.map (fun b => [upperHexChar (b / 16), upperHexChar (b % 16)])).flatten

/-- Embedding of `AudiService._generate_security_pin_hash(challenge)`
(audi_services.py lines 1383–1390).  `sha512fn` stands for hashlib's
SHA-512 (an external library, passed as a capability) and
`to_byte_array` for `util.to_byte_array` (repository code not included
under src/); `spin` is `self._spin`.  A missing PIN raises before any
hashing; otherwise the digest of the PIN bytes followed by the
challenge bytes is hex-encoded and upper-cased
(`sha512(b).hexdigest().upper()`, with `.upper()` mapping each
character through `Char.toUpper`). -/
def generate_security_pin_hash (sha512fn : List Nat → List Nat)
    (to_byte_array : String → List Nat) (spin : Option String) (challenge : String) :
    Except String String :=
  match spin with
  | Option.none => .error "sPin is required to perform this action"
  | some p =>
      .ok (String.mk ((hexdigest
        (sha512fn (to_byte_array p ++ to_byte_array challenge))).map Char.toUpper))

theorem toUpper_lowerHexChar (n : Nat) (h : n < 16) :
    Char.toUpper (lowerHexChar n) = upperHexChar n := by
  interval_cases n <;> decide

theorem hexdigest_toUpper (bs : List Nat) (h : ∀ x ∈ bs, x < 256) :
    (hexdigest bs).map Char.toUpper = upperHexdigest bs := by
  induction bs with
  | nil => rfl
  | cons b rest ih =>
      have hb : b < 256 := h b (List.mem_cons_self b rest)
      have h1 : b / 16 < 16 := by omega
      have h2 : b % 16 < 16 := by omega
      simp only [hexdigest, upperHexdigest, List.map_cons, List.flatten_cons,
        List.map_append]
      rw [toUpper_lowerHexChar _ h1, toUpper_lowerHexChar _ h2]
      simp only [List.map_cons, List.map_nil]
      congr 1
      exact ih (fun x hx => h x (List.mem_cons_of_mem b hx))

theorem upperHexdigest_length (bs : List Nat) : (upperHexdigest bs).length = 2 * bs.length := by
  induction bs with
  | nil => rfl
  | cons b rest ih =>
      simp only [upperHexdigest, List.map_cons, List.flatten_cons, List.length_append,
        List.length_cons, List.length_nil] at ih ⊢
      omega

/-- C7: with a configured PIN, `_generate_security_pin_hash` returns the
uppercase hexadecimal encoding of the SHA-512 digest of the PIN's
decoded bytes followed by the challenge's decoded bytes — 128 characters
for the 64-byte SHA-512 digest; with no PIN configured it raises the
configuration error without invoking the hash or the decoder (the error
is the same for every `sha512fn` and `to_byte_array`). -/
theorem security_pin_hash_correct (sha512fn : List Nat → List Nat)
    (to_byte_array : String → List Nat) (pin challenge : String)
    (hlen : (sha512fn (to_byte_array pin ++ to_byte_array challenge)).length = 64)
    (hbytes : ∀ x ∈ sha512fn (to_byte_array pin ++ to_byte_array challenge), x < 256) :
    generate_security_pin_hash sha512fn to_byte_array (some pin) challenge
      = .ok (String.mk (upperHexdigest
          (sha512fn (to_byte_array pin ++ to_byte_array challenge))))
    ∧ (∀ s, generate_security_pin_hash sha512fn to_byte_array (some pin) challenge
          = .ok s → s.length = 128)
    ∧ (∀ f g, generate_security_pin_hash f g Option.none challenge
          = .error "sPin is required to perform this action") := by
  have hmain : generate_security_pin_hash sha512fn to_byte_array (some pin) challenge
      = .ok (String.mk (upperHexdigest
          (sha512fn (to_byte_array pin ++ to_byte_array challenge)))) := by
    simp only [generate_security_pin_hash]
    rw [hexdigest_toUpper _ hbytes]
  refine ⟨hmain, ?_, fun f g => rfl⟩
  intro s hs
  rw [hmain] at hs
  simp only [Except.ok.injEq] at hs
  rw [← hs]
  show (String.mk (upperHexdigest _)).data.length = 128
  simp only [upperHexdigest_length, hlen]

/-- Witness for `security_pin_hash_correct` with a dummy 64-byte digest
function and the literal byte-array decoding of the spec's regression
vector inputs. -/
theorem security_pin_hash_correct_witness :
    (generate_security_pin_hash (fun _ => List.replicate 64 171) (fun _ => [18, 52])
        (some "1234") "AABBCC"
      = .ok (String.mk (upperHexdigest (List.replicate 64 171))))
    ∧ ((fun _ => List.replicate 64 171) ([18, 52] ++ [18, 52] : List Nat)).length = 64 :=
  ⟨(security_pin_hash_correct (fun _ => List.replicate 64 171) (fun _ => [18, 52])
      "1234" "AABBCC" (by decide) (by decide)).1, by decide⟩

/-- The URL-safe base64 alphabet used by `base64.urlsafe_b64encode`. -/
def b64Alphabet : List Char :=
  "ABCDEFGHIJKLMNOPQRSTUVWXYZabcdefghijklmnopqrstuvwxyz0123456789-_".toList

def b64urlChar (n : Nat) : Char := b64Alphabet.getD n '?'

/-- `base64.urlsafe_b64encode` (CPython binascii semantics, bit
operations on byte values, `'='`-padded to a multiple of four
characters). -/
def b64encodePadded : List Nat → List Char
  | [] => []
  | [a] => [b64urlChar (a >>> 2), b64urlChar ((a &&& 3) <<< 4), '=', '=']
  | [a, b] => [b64urlChar (a >>> 2), b64urlChar (((a &&& 3) <<< 4) ||| (b >>> 4)),
               b64urlChar ((b &&& 15) <<< 2), '=']
  | a :: b :: c :: rest =>
      b64urlChar (a >>> 2) :: b64urlChar (((a &&& 3) <<< 4) ||| (b >>> 4))
      :: b64urlChar (((b &&& 15) <<< 2) ||| (c >>> 6)) :: b64urlChar (c &&& 63)
      :: b64encodePadded rest

/-- Python `s.strip(ch)`: remove every leading and trailing occurrence
of `ch`. -/
def pyStripChar (ch : Char) (s : List Char) : List Char :=
  ((s.dropWhile (· == ch)).reverse.dropWhile (· == ch)).reverse

/-- `str(base64.urlsafe_b64encode(bs), "utf-8").strip("=")` as used for
both the code verifier and the code challenge (audi_services.py lines
1124–1132). -/
def urlsafe_b64encode_nopad (bs : List Nat) : String :=
  String.mk (pyStripChar '=' (b64encodePadded bs))

/-- Spec-side base64url encoding without padding (RFC 4648 §5 with the
pad characters omitted), written with division/modulus arithmetic. -/
def b64url_nopad_spec : List Nat → List Char
  | [] => []
  | [a] => [b64urlChar (a / 4), b64urlChar (a % 4 * 16)]
  | [a, b] => [b64urlChar (a / 4), b64urlChar (a % 4 * 16 + b / 16),
               b64urlChar (b % 16 * 4)]
  | a :: b :: c :: rest =>
      b64urlChar (a / 4) :: b64urlChar (a % 4 * 16 + b / 16)
      :: b64urlChar (b % 16 * 4 + c / 64) :: b64urlChar (c % 64)
      :: b64url_nopad_spec rest

set_option maxRecDepth 4096

theorem b64_and3_shl4 : ∀ a, a < 256 → (a &&& 3) <<< 4 = a % 4 * 16 := by decide

theorem b64_and15_shl2 : ∀ a, a < 256 → (a &&& 15) <<< 2 = a % 16 * 4 := by decide

theorem b64_and63 : ∀ a, a < 256 → a &&& 63 = a % 64 := by decide

theorem b64_or16 : ∀ x, x < 4 → ∀ y, y < 16 → (x * 16) ||| y = x * 16 + y := by decide

theorem b64_or4 : ∀ x, x < 16 → ∀ y, y < 4 → (x * 4) ||| y = x * 4 + y := by decide

theorem b64_shr2 (a : Nat) : a >>> 2 = a / 4 := by
  rw [Nat.shiftRight_eq_div_pow]

theorem b64_shr4 (a : Nat) : a >>> 4 = a / 16 := by
  rw [Nat.shiftRight_eq_div_pow]

theorem b64_shr6 (a : Nat) : a >>> 6 = a / 64 := by
  rw [Nat.shiftRight_eq_div_pow]

theorem b64_char2 (a b : Nat) (ha : a < 256) (hb : b < 256) :
    ((a &&& 3) <<< 4) ||| (b >>> 4) = a % 4 * 16 + b / 16 := by
  rw [b64_and3_shl4 a ha, b64_shr4]
  exact b64_or16 (a % 4) (by omega) (b / 16) (by omega)

theorem b64_char3 (b c : Nat) (hb : b < 256) (hc : c < 256) :
    ((b &&& 15) <<< 2) ||| (c >>> 6) = b % 16 * 4 + c / 64 := by
  rw [b64_and15_shl2 b hb, b64_shr6]
  exact b64_or4 (b % 16) (by omega) (c / 64) (by omega)

theorem b64encodePadded_eq_spec_append (bs : List Nat) (h : ∀ x ∈ bs, x < 256) :
    ∃ pads, b64encodePadded bs = b64url_nopad_spec bs ++ pads
      ∧ ∀ ch ∈ pads, ch = '=' := by
  induction bs using b64encodePadded.induct with
  | case1 => exact ⟨[], rfl, by simp⟩
  | case2 a =>
      have ha : a < 256 := h a (by simp)
      refine ⟨['=', '='], ?_, by simp⟩
      simp only [b64encodePadded, b64url_nopad_spec, b64_shr2,
        b64_and3_shl4 a ha, List.cons_append, List.nil_append]
  | case3 a b =>
      have ha : a < 256 := h a (by simp)
      have hb : b < 256 := h b (by simp)
      refine ⟨['='], ?_, by simp⟩
      simp only [b64encodePadded, b64url_nopad_spec, b64_shr2,
        b64_char2 a b ha hb, b64_and15_shl2 b hb, List.cons_append, List.nil_append]
  | case4 a b c rest ih =>
      have ha : a < 256 := h a (by simp)
      have hb : b < 256 := h b (by simp)
      have hc : c < 256 := h c (by simp)
      obtain ⟨pads, hpe, hpads⟩ := ih (by
        intro x hx
        exact h x (by simp [hx]))
      refine ⟨pads, ?_, hpads⟩
      simp only [b64encodePadded, b64url_nopad_spec, b64_shr2,
        b64_char2 a b ha hb, b64_char3 b c hb hc, b64_and63 c hc,
        List.cons_append, hpe]

theorem b64urlChar_ne_pad (n : Nat) : b64urlChar n ≠ '=' := by
  unfold b64urlChar
  by_cases hn : n < 64
  · interval_cases n <;> decide
  · rw [List.getD_eq_default]
    · decide
    · show b64Alphabet.length ≤ n
      have : b64Alphabet.length = 64 := by decide
      omega

theorem b64urlChar_ascii (n : Nat) : (b64urlChar n).toNat < 128 := by
  unfold b64urlChar
  by_cases hn : n < 64
  · interval_cases n <;> decide
  · rw [List.getD_eq_default]
    · decide
    · show b64Alphabet.length ≤ n
      have : b64Alphabet.length = 64 := by decide
      omega

theorem b64url_nopad_spec_ne_pad (bs : List Nat) :
    ∀ ch ∈ b64url_nopad_spec bs, ch ≠ '=' := by
  induction bs using b64url_nopad_spec.induct with
  | case1 => simp [b64url_nopad_spec]
  | case2 a =>
      intro ch hch
      simp only [b64url_nopad_spec, List.mem_cons, List.not_mem_nil, or_false] at hch
      rcases hch with h | h <;> (subst h; exact b64urlChar_ne_pad _)
  | case3 a b =>
      intro ch hch
      simp only [b64url_nopad_spec, List.mem_cons, List.not_mem_nil, or_false] at hch
      rcases hch with h | h | h <;> (subst h; exact b64urlChar_ne_pad _)
  | case4 a b c rest ih =>
      intro ch hch
      simp only [b64url_nopad_spec, List.mem_cons] at hch
      rcases hch with h | h | h | h | h
      · subst h; exact b64urlChar_ne_pad _
      · subst h; exact b64urlChar_ne_pad _
      · subst h; exact b64urlChar_ne_pad _
      · subst h; exact b64urlChar_ne_pad _
      · exact ih ch h

theorem b64url_nopad_spec_ascii (bs : List Nat) :
    ∀ ch ∈ b64url_nopad_spec bs, ch.toNat < 128 := by
  induction bs using b64url_nopad_spec.induct with
  | case1 => simp [b64url_nopad_spec]
  | case2 a =>
      intro ch hch
      simp only [b64url_nopad_spec, List.mem_cons, List.not_mem_nil, or_false] at hch
      rcases hch with h | h <;> (subst h; exact b64urlChar_ascii _)
  | case3 a b =>
      intro ch hch
      simp only [b64url_nopad_spec, List.mem_cons, List.not_mem_nil, or_false] at hch
      rcases hch with h | h | h <;> (subst h; exact b64urlChar_ascii _)
  | case4 a b c rest ih =>
      intro ch hch
      simp only [b64url_nopad_spec, List.mem_cons] at hch
      rcases hch with h | h | h | h | h
      · subst h; exact b64urlChar_ascii _
      · subst h; exact b64urlChar_ascii _
      · subst h; exact b64urlChar_ascii _
      · subst h; exact b64urlChar_ascii _
      · exact ih ch h

theorem dropWhile_append_all {α : Type} (p : α → Bool) (u v : List α)
    (hu : ∀ c ∈ u, p c = true) : (u ++ v).dropWhile p = v.dropWhile p := by
  induction u with
  | nil => rfl
  | cons a u' ih =>
      rw [List.cons_append, List.dropWhile_cons, if_pos (hu a (by simp))]
      exact ih (fun c hc => hu c (by simp [hc]))

/-- Stripping a pad character from a pad-free body followed by pure
padding recovers the body. -/
theorem pyStripChar_body_pad (ch : Char) (x pads : List Char)
    (hx : ∀ c ∈ x, c ≠ ch) (hp : ∀ c ∈ pads, c = ch) :
    pyStripChar ch (x ++ pads) = x := by
  unfold pyStripChar
  cases x with
  | nil =>
      have h1 : (List.nil ++ pads).dropWhile (· == ch) = [] := by
        rw [List.nil_append, List.dropWhile_eq_nil_iff]
        intro c hc
        simp [hp c hc]
      rw [h1]
      rfl
  | cons d x' =>
      have hd : (d == ch) = false := by
        simp [hx d (by simp)]
      rw [List.cons_append, List.dropWhile_cons, hd]
      simp only [Bool.false_eq_true, if_false]
      rw [show ((d :: (x' ++ pads)) : List Char).reverse
            = pads.reverse ++ (d :: x').reverse by simp]
      rw [dropWhile_append_all _ pads.reverse _ (by
        intro c hc
        rw [List.mem_reverse] at hc
        simp [hp c hc])]
      cases hxr : (d :: x').reverse with
      | nil => exact absurd hxr (by simp)
      | cons e xr =>
          have he : e ∈ d :: x' := by
            rw [← List.mem_reverse, hxr]
            simp
          have he' : (e == ch) = false := by
            simp [hx e he]
          rw [List.dropWhile_cons, he']
          simp only [Bool.false_eq_true, if_false]
          rw [← hxr, List.reverse_reverse]

/-- The strip of the padded encoder equals the spec-side no-padding
base64url encoder, for every byte string. -/
theorem urlsafe_b64encode_nopad_eq_spec (bs : List Nat) (h : ∀ x ∈ bs, x < 256) :
    urlsafe_b64encode_nopad bs = String.mk (b64url_nopad_spec bs) := by
  obtain ⟨pads, hpe, hpads⟩ := b64encodePadded_eq_spec_append bs h
  unfold urlsafe_b64encode_nopad
  rw [hpe, pyStripChar_body_pad '=' _ _ (b64url_nopad_spec_ne_pad bs) hpads]

/-- Python `s.encode("ascii", "ignore")`: keep the code points below
128, as raw bytes. -/
def pyEncodeAscii (s : String) : List Nat :=
  (s.toList.filter (fun c => decide (c.toNat < 128))).map (fun c => c.toNat)

/-- `code_verifier` of `login_request` (audi_services.py lines
1122–1124): base64url of the 32 bytes drawn from `os.urandom(32)`,
stripped of padding. -/
def generate_code_verifier (random : List Nat) : String :=
  urlsafe_b64encode_nopad random

/-- `code_challenge` of `login_request` (audi_services.py lines
1125–1131): base64url, stripped of padding, of the SHA-256 digest
(`sha256fn`, hashlib passed as an external capability) of the
verifier's ASCII encoding. -/
def generate_code_challenge (sha256fn : List Nat → List Nat) (verifier : String) : String :=
  urlsafe_b64encode_nopad (sha256fn (pyEncodeAscii verifier))

/-- `code_challenge_method` of `login_request` (audi_services.py line
1132). -/
def code_challenge_method : String := "S256"

/-- C6: for a 32-byte random value, the verifier is its base64url
encoding without padding; the verifier's ASCII encoding drops nothing
(every verifier character is ASCII); the challenge is the base64url
encoding without padding of the SHA-256 digest of those verifier bytes;
and the method literal is `"S256"`. -/
theorem pkce_challenge_correct (sha256fn : List Nat → List Nat) (random32 : List Nat)
    (_hlen : random32.length = 32) (hbytes : ∀ x ∈ random32, x < 256)
    (hdig : ∀ x ∈ sha256fn (pyEncodeAscii (generate_code_verifier random32)), x < 256) :
    generate_code_verifier random32 = String.mk (b64url_nopad_spec random32)
    ∧ pyEncodeAscii (generate_code_verifier random32)
        = (generate_code_verifier random32).toList.map Char.toNat
    ∧ generate_code_challenge sha256fn (generate_code_verifier random32)
        = String.mk (b64url_nopad_spec
            (sha256fn ((generate_code_verifier random32).toList.map Char.toNat)))
    ∧ code_challenge_method = "S256" := by
  have h1 : generate_code_verifier random32 = String.mk (b64url_nopad_spec random32) :=
    urlsafe_b64encode_nopad_eq_spec random32 hbytes
  have htl : (generate_code_verifier random32).toList = b64url_nopad_spec random32 := by
    rw [h1]
    rfl
  have h2 : pyEncodeAscii (generate_code_verifier random32)
      = (generate_code_verifier random32).toList.map Char.toNat := by
    unfold pyEncodeAscii
    rw [htl, List.filter_eq_self.mpr]
    intro c hc
    simpa using b64url_nopad_spec_ascii random32 c hc
  refine ⟨h1, h2, ?_, rfl⟩
  unfold generate_code_challenge
  rw [← h2]
  exact urlsafe_b64encode_nopad_eq_spec _ hdig

/-- Witness for `pkce_challenge_correct` with the concrete bytes
`0,…,31` and a digest function reducing every byte modulo 256. -/
theorem pkce_challenge_correct_witness :
    generate_code_verifier (List.range 32) = String.mk (b64url_nopad_spec (List.range 32))
    ∧ code_challenge_method = "S256" :=
  ⟨(pkce_challenge_correct (fun bs => bs.map (· % 256)) (List.range 32) (by decide)
      (by decide) (by
        intro x hx
        simp only [List.mem_map] at hx
        obtain ⟨y, -, hy⟩ := hx
        omega)).1,
   (pkce_challenge_correct (fun bs => bs.map (· % 256)) (List.range 32) (by decide)
      (by decide) (by
        intro x hx
        simp only [List.mem_map] at hx
        obtain ⟨y, -, hy⟩ := hx
        omega)).2.2.2⟩

/-- ASCII whitespace as matched by the pattern's `\s` (the login pages
are ASCII; the unicode extras of Python's `\s` are not modelled). -/
def pyIsSpace (c : Char) : Bool :=
  c == ' ' || c == '\t' || c == '\n' || c == '\r' || c == '\x0b' || c == '\x0c'

/-- `[0-9a-fA-F]`. -/
def isHexDigitChar (c : Char) : Bool :=
  (decide ('0' ≤ c) && decide (c ≤ '9'))
    || (decide ('a' ≤ c) && decide (c ≤ 'f'))
    || (decide ('A' ≤ c) && decide (c ≤ 'F'))

/-- The literal `"hmac"` heading the pattern. -/
def hmacLit : List Char := ['"', 'h', 'm', 'a', 'c', '"']

/-- Match of the regex `"hmac"\s*:\s*"[0-9a-fA-F]+"` anchored at the
start of `l`, returning the matched characters.  The greedy `\s*` /
`[0-9a-fA-F]+` quantifiers need no backtracking here because the
character following each (`:` resp. `"`) cannot extend them. -/
def matchHmacAt (l : List Char) : Option (List Char) :=
  if hmacLit.isPrefixOf l then
    match (l.drop 6).dropWhile pyIsSpace with
    | [] => Option.none
    | c :: l3 =>
      if c == ':' then
        match l3.dropWhile pyIsSpace with
        | [] => Option.none
        | d :: l5 =>
          if d == '"' then
            if (l5.takeWhile isHexDigitChar).isEmpty then Option.none
            else match l5.dropWhile isHexDigitChar with
              | [] => Option.none
              | e :: _ =>
                  if e == '"' then
                    some (hmacLit ++ (l.drop 6).takeWhile pyIsSpace
                      ++ ':' :: l3.takeWhile pyIsSpace
                      ++ '"' :: l5.takeWhile isHexDigitChar ++ ['"'])
                  else Option.none
          else Option.none
      else Option.none
  else Option.none

/-- Leftmost match of the pattern in `l`, as found by
`re.findall(...)[0]` (audi_services.py line 1185; only emptiness and
the first element of `findall`'s result are used by the code). -/
def findFirstHmac : List Char → Option (List Char)
  | [] => Option.none
  | c :: cs =>
      match matchHmacAt (c :: cs) with
      | some m => some m
      | Option.none => findFirstHmac cs

/-- Python `s.split(sep)` for a single-character separator. -/
def splitOnChar (sep : Char) : List Char → List (List Char)
  | [] => [[]]
  | c :: cs =>
      match splitOnChar sep cs with
      | [] => [[]]
      | h :: t => if c == sep then [] :: h :: t else (c :: h) :: t

/-- `regex_res[0].split(":")[1].strip('"')` (audi_services.py line
1187). -/
def extract_hmac (m : List Char) : String :=
  String.mk (pyStripChar '"' ((splitOnChar ':' m).getD 1 []))

/-- The submit URL and form payload produced by the password-submission
step. -/
structure SubmitRequest where
  url : String
  data : PyDict String
  deriving DecidableEq, Repr

/-- Embedding of the password-submission step of `login_request`
(audi_services.py lines 1184–1194).  `hiddenExtract` is
`get_hidden_html_input_form_data` and `postUrl` is `get_post_url`
(BeautifulSoup-backed HTML extraction, passed as external capabilities;
`postUrl` may raise on an unparsable form action).  `submit_data` holds
the previously collected hidden fields plus the email. -/
def password_submit_step (hiddenExtract : String → PyDict String → PyDict String)
    (postUrl : String → String → Except Unit String)
    (email_rsptxt submit_url : String) (submit_data : PyDict String) (password : String) :
    Except Unit SubmitRequest :=
  match findFirstHmac email_rsptxt.toList with
  | some m =>
      .ok { url := submit_url.replace "identifier" "authenticate",
            data := pySet (pySet submit_data "hmac" (extract_hmac m)) "password" password }
  | Option.none =>
      match postUrl email_rsptxt submit_url with
      | .ok u => .ok { url := u,
                       data := hiddenExtract email_rsptxt [("password", password)] }
      | .error _ => .error ()

/-- Spec-side reading of "a substring matching the pattern": the
matched text decomposes into the `"hmac"` literal, optional whitespace,
a colon, optional whitespace, and a non-empty quoted hex run. -/
def HmacPattern (m : List Char) : Prop :=
  ∃ ws1 ws2 hex, m = hmacLit ++ ws1 ++ ':' :: ws2 ++ '"' :: hex ++ ['"']
    ∧ (∀ c ∈ ws1, pyIsSpace c = true) ∧ (∀ c ∈ ws2, pyIsSpace c = true)
    ∧ hex ≠ [] ∧ (∀ c ∈ hex, isHexDigitChar c = true)

/-- The response body contains a substring matching the pattern. -/
def ContainsHmacPattern (s : String) : Prop :=
  ∃ p m q, s.toList = p ++ m ++ q ∧ HmacPattern m

theorem takeWhile_all_append {α : Type} (p : α → Bool) (xs : List α) (y : α) (ys : List α)
    (hxs : ∀ c ∈ xs, p c = true) (hy : p y = false) :
    (xs ++ y :: ys).takeWhile p = xs ∧ (xs ++ y :: ys).dropWhile p = y :: ys := by
  induction xs with
  | nil =>
      constructor
      · rw [List.nil_append, List.takeWhile_cons, hy]
        simp
      · rw [List.nil_append, List.dropWhile_cons, hy]
        simp
  | cons a xs' ih =>
      obtain ⟨ih1, ih2⟩ := ih (fun c hc => hxs c (by simp [hc]))
      have ha : p a = true := hxs a (by simp)
      constructor
      · rw [List.cons_append, List.takeWhile_cons, ha]
        simp [ih1]
      · rw [List.cons_append, List.dropWhile_cons, ha]
        simp [ih2]

/-- Completeness of the anchored matcher: at the start of a text that
begins with a pattern instance, the matcher returns exactly that
instance. -/
theorem matchHmacAt_of_pattern (ws1 ws2 hex rest : List Char)
    (hws1 : ∀ c ∈ ws1, pyIsSpace c = true) (hws2 : ∀ c ∈ ws2, pyIsSpace c = true)
    (hhexne : hex ≠ []) (hhex : ∀ c ∈ hex, isHexDigitChar c = true) :
    matchHmacAt ((hmacLit ++ ws1 ++ ':' :: ws2 ++ '"' :: hex ++ ['"']) ++ rest)
      = some (hmacLit ++ ws1 ++ ':' :: ws2 ++ '"' :: hex ++ ['"']) := by
  have hassoc : (hmacLit ++ ws1 ++ ':' :: ws2 ++ '"' :: hex ++ ['"']) ++ rest
      = hmacLit ++ (ws1 ++ ':' :: (ws2 ++ '"' :: (hex ++ ('"' :: rest)))) := by
    simp [List.append_assoc]
  rw [hassoc]
  unfold matchHmacAt
  rw [if_pos (by
    rw [List.isPrefixOf_iff_prefix]
    exact List.prefix_append _ _)]
  rw [show (6 : Nat) = hmacLit.length from rfl, List.drop_left]
  obtain ⟨ht1, hd1⟩ := takeWhile_all_append pyIsSpace ws1 ':'
    (ws2 ++ '"' :: (hex ++ ('"' :: rest))) hws1 (by decide)
  obtain ⟨ht2, hd2⟩ := takeWhile_all_append pyIsSpace ws2 '"'
    (hex ++ ('"' :: rest)) hws2 (by decide)
  obtain ⟨ht3, hd3⟩ := takeWhile_all_append isHexDigitChar hex '"' rest hhex (by decide)
  simp [ht1, hd1, ht2, hd2, ht3, hd3, List.isEmpty_iff, hhexne]

/-- Soundness of the anchored matcher: a successful match is a pattern
instance and a prefix of the scanned text. -/
theorem matchHmacAt_some (l m : List Char) (h : matchHmacAt l = some m) :
    HmacPattern m ∧ ∃ rest, l = m ++ rest := by
  unfold matchHmacAt at h
  split at h
  · rename_i hpre
    have hl : l = hmacLit ++ l.drop 6 := by
      rw [List.isPrefixOf_iff_prefix] at hpre
      obtain ⟨t, ht⟩ := hpre
      conv_lhs => rw [← ht]
      rw [← ht, show (6 : Nat) = hmacLit.length from rfl, List.drop_left]
    split at h
    · exact absurd h (by simp)
    · rename_i c l3 hd1
      split at h
      · rename_i hc
        simp only [beq_iff_eq] at hc
        subst hc
        split at h
        · exact absurd h (by simp)
        · rename_i d l5 hd2
          split at h
          · rename_i hd
            simp only [beq_iff_eq] at hd
            subst hd
            split at h
            · exact absurd h (by simp)
            · rename_i hne
              split at h
              · exact absurd h (by simp)
              · rename_i e tail hd3
                split at h
                · rename_i he
                  simp only [beq_iff_eq] at he
                  subst he
                  simp only [Option.some.injEq] at h
                  set w1 := (l.drop 6).takeWhile pyIsSpace with hw1
                  set w2 := l3.takeWhile pyIsSpace with hw2
                  set hx := l5.takeWhile isHexDigitChar with hhx
                  refine ⟨⟨w1, w2, hx, h.symm, ?_, ?_, ?_, ?_⟩, tail, ?_⟩
                  · intro ch hch
                    rw [hw1] at hch
                    exact List.mem_takeWhile_imp hch
                  · intro ch hch
                    rw [hw2] at hch
                    exact List.mem_takeWhile_imp hch
                  · intro hnil
                    exact hne (by rw [← hhx] at *; simp [hnil])
                  · intro ch hch
                    rw [hhx] at hch
                    exact List.mem_takeWhile_imp hch
                  · have e1 := (List.takeWhile_append_dropWhile pyIsSpace (l.drop 6)).symm
                    rw [hd1, ← hw1] at e1
                    have e2 := (List.takeWhile_append_dropWhile pyIsSpace l3).symm
                    rw [hd2, ← hw2] at e2
                    have e3 := (List.takeWhile_append_dropWhile isHexDigitChar l5).symm
                    rw [hd3, ← hhx] at e3
                    rw [← h, hl, e1, e2, e3]
                    simp [List.append_assoc]
                · exact absurd h (by simp)
          · exact absurd h (by simp)
      · exact absurd h (by simp)
  · exact absurd h (by simp)

theorem findFirstHmac_sound (l : List Char) :
    ∀ m, findFirstHmac l = some m → HmacPattern m ∧ ∃ p q, l = p ++ m ++ q := by
  induction l with
  | nil => intro m h; exact absurd h (by simp [findFirstHmac])
  | cons c cs ih =>
      intro m h
      cases hma : matchHmacAt (c :: cs) with
      | some m' =>
          simp only [findFirstHmac, hma, Option.some.injEq] at h
          obtain ⟨hp, rest, hrest⟩ := matchHmacAt_some _ _ hma
          subst h
          exact ⟨hp, [], rest, by simpa using hrest⟩
      | none =>
          simp only [findFirstHmac, hma] at h
          obtain ⟨hp, p, q, heq⟩ := ih m h
          exact ⟨hp, c :: p, q, by simp [heq]⟩

theorem findFirstHmac_isSome_append (u v : List Char) (hv : (matchHmacAt v).isSome) :
    (findFirstHmac (u ++ v)).isSome := by
  induction u with
  | nil =>
      rw [List.nil_append]
      cases v with
      | nil =>
          rw [show matchHmacAt ([] : List Char) = Option.none from rfl] at hv
          exact absurd hv (by simp)
      | cons c cs =>
          rw [findFirstHmac]
          cases hma : matchHmacAt (c :: cs) with
          | some m => simp
          | none => rw [hma] at hv; exact absurd hv (by simp)
  | cons c u' ih =>
      rw [List.cons_append, findFirstHmac]
      cases hma : matchHmacAt (c :: (u' ++ v)) with
      | some m => simp
      | none => simpa using ih

/-- C9: the password-submission step.  If the prior response body
contains a substring matching `"hmac"\s*:\s*"[0-9a-fA-F]+"`, the step
replaces `identifier` with `authenticate` in the submit URL and extends
the previously collected form data with the extracted hmac value and
the password; otherwise the hidden fields are re-extracted from the new
page together with the password and the form action is re-resolved
(propagating its failure). -/
theorem password_submit_variants (hiddenExtract : String → PyDict String → PyDict String)
    (postUrl : String → String → Except Unit String)
    (email_rsptxt submit_url : String) (submit_data : PyDict String) (password : String) :
    (ContainsHmacPattern email_rsptxt →
       ∃ m, findFirstHmac email_rsptxt.toList = some m ∧ HmacPattern m
         ∧ password_submit_step hiddenExtract postUrl email_rsptxt submit_url
             submit_data password
           = .ok { url := submit_url.replace "identifier" "authenticate",
                   data := pySet (pySet submit_data "hmac" (extract_hmac m))
                             "password" password })
    ∧ (¬ ContainsHmacPattern email_rsptxt →
       findFirstHmac email_rsptxt.toList = Option.none
       ∧ password_submit_step hiddenExtract postUrl email_rsptxt submit_url
           submit_data password
         = match postUrl email_rsptxt submit_url with
           | .ok u => .ok { url := u,
                            data := hiddenExtract email_rsptxt [("password", password)] }
           | .error _ => .error ()) := by
  constructor
  · intro hc
    obtain ⟨p, m, q, heq, hm⟩ := hc
    have hsome : (findFirstHmac email_rsptxt.toList).isSome := by
      obtain ⟨ws1, ws2, hex, hme, hws1, hws2, hne, hhex⟩ := hm
      rw [heq, List.append_assoc]
      apply findFirstHmac_isSome_append
      rw [hme]
      rw [matchHmacAt_of_pattern ws1 ws2 hex q hws1 hws2 hne hhex]
      simp
    obtain ⟨m', hm'⟩ := Option.isSome_iff_exists.mp hsome
    refine ⟨m', hm', (findFirstHmac_sound _ m' hm').1, ?_⟩
    have hm'' : findFirstHmac email_rsptxt.data = some m' := hm'
    simp [password_submit_step, hm'']
  · intro hnc
    have hnone : findFirstHmac email_rsptxt.toList = Option.none := by
      cases hf : findFirstHmac email_rsptxt.toList with
      | none => rfl
      | some m =>
          obtain ⟨hp, p, q, heq⟩ := findFirstHmac_sound _ m hf
          exact absurd ⟨p, m, q, heq, hp⟩ hnc
    refine ⟨hnone, ?_⟩
    simp only [password_submit_step, hnone]

theorem splitOnChar_no_sep (sep : Char) (u : List Char)
    (hu : ∀ c ∈ u, (c == sep) = false) : splitOnChar sep u = [u] := by
  induction u with
  | nil => rfl
  | cons c u' ih =>
      have hc := hu c (by simp)
      rw [splitOnChar, ih (fun d hd => hu d (by simp [hd])), hc]
      simp

theorem splitOnChar_single (sep : Char) (u v : List Char)
    (hu : ∀ c ∈ u, (c == sep) = false) (hv : ∀ c ∈ v, (c == sep) = false) :
    splitOnChar sep (u ++ sep :: v) = [u, v] := by
  induction u with
  | nil =>
      rw [List.nil_append, splitOnChar, splitOnChar_no_sep sep v hv]
      simp
  | cons c u' ih =>
      have hc := hu c (by simp)
      rw [List.cons_append, splitOnChar, ih (fun d hd => hu d (by simp [hd])), hc]
      simp

/-- In the common vendor variant with no whitespace after the colon,
the extraction rule recovers exactly the hex digits of the match. -/
theorem extract_hmac_no_ws2 (ws1 hex : List Char)
    (hws1 : ∀ c ∈ ws1, pyIsSpace c = true)
    (hne : hex ≠ []) (hhex : ∀ c ∈ hex, isHexDigitChar c = true) :
    extract_hmac (hmacLit ++ ws1 ++ ':' :: '"' :: hex ++ ['"']) = String.mk hex := by
  have hu : ∀ c ∈ hmacLit ++ ws1, (c == ':') = false := by
    intro c hc
    rcases List.mem_append.mp hc with h | h
    · fin_cases h <;> decide
    · have hs := hws1 c h
      by_contra hb
      rw [Bool.not_eq_false, beq_iff_eq] at hb
      subst hb
      exact absurd hs (by decide)
  have hv : ∀ c ∈ ('"' :: (hex ++ ['"']) : List Char), (c == ':') = false := by
    intro c hc
    rcases List.mem_cons.mp hc with h | h
    · subst h; decide
    · rcases List.mem_append.mp h with h' | h'
      · have hs := hhex c h'
        by_contra hb
        rw [Bool.not_eq_false, beq_iff_eq] at hb
        subst hb
        exact absurd hs (by decide)
      · rw [List.mem_singleton.mp h']
        decide
  have hshape : hmacLit ++ ws1 ++ ':' :: '"' :: hex ++ ['"']
      = (hmacLit ++ ws1) ++ ':' :: ('"' :: (hex ++ ['"'])) := by
    simp [List.append_assoc]
  unfold extract_hmac
  rw [hshape, splitOnChar_single ':' _ _ hu hv]
  have hgd : ([hmacLit ++ ws1, '"' :: (hex ++ ['"'])].getD 1 []) = '"' :: (hex ++ ['"']) := rfl
  rw [hgd]
  cases hx : hex with
  | nil => exact absurd hx hne
  | cons h0 hx' =>
      have hh0 : (h0 == '"') = false := by
        have hs := hhex h0 (by simp [hx])
        by_contra hb
        rw [Bool.not_eq_false, beq_iff_eq] at hb
        subst hb
        exact absurd hs (by decide)
      unfold pyStripChar
      rw [List.dropWhile_cons]
      simp only [show (('"' : Char) == '"') = true from rfl, if_true]
      rw [List.cons_append, List.dropWhile_cons, hh0]
      simp only [Bool.false_eq_true, if_false]
      rw [show ((h0 :: (hx' ++ ['"'])) : List Char).reverse
            = '"' :: (hx'.reverse ++ [h0]) by simp]
      rw [List.dropWhile_cons]
      simp only [show (('"' : Char) == '"') = true from rfl, if_true]
      cases hxr : (hx'.reverse ++ [h0] : List Char) with
      | nil => exact absurd hxr (by simp)
      | cons e r =>
          have he : e ∈ h0 :: hx' := by
            have : e ∈ hx'.reverse ++ [h0] := by rw [hxr]; simp
            rcases List.mem_append.mp this with h' | h'
            · simp [List.mem_reverse.mp h']
            · simp [List.mem_singleton.mp h']
          have hee : (e == '"') = false := by
            have hs := hhex e (by simp [hx, List.mem_cons.mp he])
            by_contra hb
            rw [Bool.not_eq_false, beq_iff_eq] at hb
            subst hb
            exact absurd hs (by decide)
          rw [List.dropWhile_cons, hee]
          simp only [Bool.false_eq_true, if_false]
          rw [← hxr]
          congr 1
          rw [show (hx'.reverse ++ [h0] : List Char) = (h0 :: hx').reverse by simp]
          rw [List.reverse_reverse]

/-- Witness for `password_submit_variants`: a response body embedding
`"hmac" : "DEADBEEF"` takes the hmac branch with the mutated URL. -/
theorem password_submit_variants_witness :
    ∃ m, findFirstHmac ("ab\"hmac\" : \"DEADBEEF\"cd").toList = some m
      ∧ HmacPattern m
      ∧ password_submit_step (fun _ d => d) (fun _ u => .ok u)
          "ab\"hmac\" : \"DEADBEEF\"cd" "https://x/identifier" [("email", "e")] "pw"
        = .ok { url := ("https://x/identifier").replace "identifier" "authenticate",
                data := pySet (pySet [("email", "e")] "hmac" (extract_hmac m))
                          "password" "pw" } :=
  (password_submit_variants (fun _ d => d) (fun _ u => .ok u)
      "ab\"hmac\" : \"DEADBEEF\"cd" "https://x/identifier" [("email", "e")] "pw").1
    ⟨"ab".toList, "\"hmac\" : \"DEADBEEF\"".toList, "cd".toList, by decide,
     [' '], [' '], "DEADBEEF".toList, by decide, by decide, by decide, by decide,
     by decide⟩
